import Mathlib

/-!
# Verification of the ATM touchless-kiosk interaction pipeline

Shallow embedding of the real-time interaction pipeline of the ATM simulator:
the position stabilizer (`src/vision/position_tracker.py`), the gesture
validator (`src/core/gesture_validator.py`), the session supervisor
(`src/core/session_supervisor.py`), the hierarchical state machine with its
modal stack and audio policy (`src/core/state_machine.py`,
`src/core/audio_policy.py`), and the account ledger
(`src/core/account_manager.py`).

Conventions of the embedding:
- Python floats are modelled as rationals (`ℚ`); wall-clock time is an
  explicit `ℚ` argument threaded through calls that read `time.time()`.
- Python dict-based records become structures; `None` becomes `Option`.
- Keypoints are variable-length tuples in the source (`kp[2] if len(kp) > 2
  else 0`), embedded as `List ℚ` with `List.getD`.
- Methods that mutate `self` become functions `state → input → state × output`.
-/

/- Batteries marks the rational operations `@[irreducible]`, which blocks
elaborator-side evaluation in `decide`; restore the default reducibility for
this file so that concrete runs of the pipeline evaluate. -/
attribute [local semireducible] Rat.mul Rat.add Rat.sub Rat.inv

namespace ATM

/-! ## Position tracker (`src/vision/position_tracker.py`) -/

/-- `FingerPosition` enumeration from `position_tracker.py`. -/
inductive FingerPosition
  | left
  | center
  | right
  | free
deriving DecidableEq

/-- The `.value` string of each `FingerPosition` enum member. -/
def FingerPosition.value : FingerPosition → String
  | .left => "left"
  | .center => "center"
  | .right => "right"
  | .free => "free"

/-- Constructor parameters of `PositionTracker`.  The `head_zone_ratio`
parameter of the source is named `head_zone` here. -/
structure TrackerConfig where
  left_threshold : ℚ
  right_threshold : ℚ
  required_consecutive : ℕ
  free_threshold : ℕ
  edge_margin : ℚ
  head_zone : ℚ

/-- The default constructor arguments of `PositionTracker.__init__`. -/
def defaultTrackerConfig : TrackerConfig :=
  { left_threshold := 1/3
    right_threshold := 2/3
    required_consecutive := 5
    free_threshold := 5
    edge_margin := 1/20
    head_zone := 1/10 }

/-- Mutable state of a `PositionTracker` instance.  The source also keeps a
`_position_history` deque, but it is only ever written (appended nowhere,
cleared in `reset`) and never read, so it carries no information and is
omitted. -/
structure TrackerState where
  no_detection_count : ℕ
  last_stable_position : FingerPosition
  current_candidate : Option FingerPosition
  consecutive_count : ℕ
deriving DecidableEq

/-- The state set up by `PositionTracker.__init__` / `reset`. -/
def initTrackerState : TrackerState :=
  { no_detection_count := 0
    last_stable_position := .free
    current_candidate := none
    consecutive_count := 0 }

/-- The detection-result dict produced by `yolo_pose_detector.py` and consumed
by `PositionTracker.update` and `SessionSupervisor.handle_absence`.  Each
keypoint is an `(x, y, confidence)` tuple, embedded as a `List ℚ` because the
tracker defends against tuples lacking the confidence entry. -/
structure DetectionResult where
  detected : Bool
  point_x : ℚ
  point_y : ℚ
  keypoints : List (List ℚ)
  width : ℚ
  height : ℚ
  person_count : ℕ
  primary_person_area : ℚ
deriving DecidableEq

/-- Debug payload attached to each tracker result (the `debug_info` dict). -/
inductive TrackerDebug
  | detection (point_x : ℚ) (candidate : FingerPosition) (consecutive : ℕ)
      (using_finger : Bool) (finger_tip : Option (ℚ × ℚ))
  | noDetection (no_detection_count : ℕ)
deriving DecidableEq

/-- The dict returned by `PositionTracker.update`. -/
structure TrackerResult where
  position : FingerPosition
  progress : ℚ
  is_stable : Bool
  debug_info : TrackerDebug
deriving DecidableEq

/-- `PositionTracker._determine_position`. -/
def determine_position (cfg : TrackerConfig) (x : ℚ) : FingerPosition :=
  if x < cfg.left_threshold then .left
  else if x < cfg.right_threshold then .center
  else .right

/-- `PositionTracker._is_edge_position`. -/
def is_edge_position (cfg : TrackerConfig) (x : ℚ) : Bool :=
  x < cfg.edge_margin ∨ (1 - cfg.edge_margin) < x

/-- `PositionTracker._handle_no_detection`. -/
def handle_no_detection (cfg : TrackerConfig) (s : TrackerState) :
    TrackerState × TrackerResult :=
  let n := s.no_detection_count + 1
  let s1 : TrackerState :=
    { s with no_detection_count := n, current_candidate := none,
             consecutive_count := 0 }
  if cfg.free_threshold ≤ n then
    ({ s1 with last_stable_position := .free },
     { position := .free, progress := 0, is_stable := true,
       debug_info := .noDetection n })
  else
    (s1,
     { position := s.last_stable_position, progress := 0, is_stable := false,
       debug_info := .noDetection n })

/-- `PositionTracker._calculate_finger_tip`: forearm vector extrapolation
`tip = wrist + (wrist - elbow) * 0.8` in pixel space, using the
higher-confidence wrist above the 0.3 minimum; falls back to the wrist point
alone when the chosen elbow's confidence is below 0.3; `none` when neither
wrist clears the threshold (or the keypoint list / frame size is degenerate).
COCO indices: 7 = left elbow, 8 = right elbow, 9 = left wrist,
10 = right wrist. -/
def calculate_finger_tip (keypoints : List (List ℚ)) (width height : ℚ) :
    Option (ℚ × ℚ) :=
  if keypoints.isEmpty ∨ keypoints.length < 11 ∨ width = 0 ∨ height = 0 then
    none
  else
    let rw := keypoints.getD 10 []
    let lw := keypoints.getD 9 []
    let relb := keypoints.getD 8 []
    let lelb := keypoints.getD 7 []
    let min_conf : ℚ := 3/10
    let rw_score := if 2 < rw.length then rw.getD 2 0 else 0
    let lw_score := if 2 < lw.length then lw.getD 2 0 else 0
    let rw_valid := min_conf < rw_score
    let lw_valid := min_conf < lw_score
    let target? : Option (List ℚ × List ℚ) :=
      if rw_valid ∧ lw_valid then
        if lw_score < rw_score then some (rw, relb) else some (lw, lelb)
      else if rw_valid then some (rw, relb)
      else if lw_valid then some (lw, lelb)
      else none
    match target? with
    | none => none
    | some (tw, te) =>
      if 2 < te.length ∧ te.getD 2 0 < min_conf then
        some (tw.getD 0 0 / width, tw.getD 1 0 / height)
      else
        let wx := tw.getD 0 0
        let wy := tw.getD 1 0
        let ex := te.getD 0 0
        let ey := te.getD 1 0
        let vec_x := wx - ex
        let vec_y := wy - ey
        let fx := wx + vec_x * (4/5)
        let fy := wy + vec_y * (4/5)
        some (fx / width, fy / height)

/-- The detection branch of `PositionTracker.update` once a point `x` has been
accepted for classification (candidate update, consecutive counting, progress
computation, rising-edge stabilization). -/
def process_point (cfg : TrackerConfig) (s : TrackerState) (x : ℚ)
    (using_finger : Bool) (finger_tip : Option (ℚ × ℚ)) :
    TrackerState × TrackerResult :=
  let candidate := determine_position cfg x
  if is_edge_position cfg x then handle_no_detection cfg s
  else
    let c :=
      if some candidate = s.current_candidate then s.consecutive_count + 1
      else 1
    let s1 : TrackerState :=
      { s with no_detection_count := 0, current_candidate := some candidate,
               consecutive_count := c }
    let progress := min 1 ((c : ℚ) / cfg.required_consecutive)
    let dbg := TrackerDebug.detection x candidate c using_finger finger_tip
    if cfg.required_consecutive ≤ c then
      ({ s1 with last_stable_position := candidate },
       { position := candidate, progress := 1, is_stable := true,
         debug_info := dbg })
    else
      (s1,
       { position := s.last_stable_position, progress := progress,
         is_stable := false, debug_info := dbg })

/-- `PositionTracker.update`: no-detection handling, finger-tip extrapolation
with head-zone rejection, fallback to the detector's `point_x`, edge
rejection, and rising-edge debounce. -/
def PositionTracker.update (cfg : TrackerConfig) (s : TrackerState)
    (d : DetectionResult) : TrackerState × TrackerResult :=
  if d.detected = false then handle_no_detection cfg s
  else
    match calculate_finger_tip d.keypoints d.width d.height with
    | some (fx, fy) =>
        if fy < cfg.head_zone then handle_no_detection cfg s
        else process_point cfg s fx true (some (fx, fy))
    | none => process_point cfg s d.point_x false none

/-- Iterated `PositionTracker.update` over a list of detection results,
collecting the per-tick results. -/
def trackerRun (cfg : TrackerConfig) (s : TrackerState) :
    List DetectionResult → TrackerState × List TrackerResult
  | [] => (s, [])
  | d :: ds =>
    let p := PositionTracker.update cfg s d
    let q := trackerRun cfg p.1 ds
    (q.1, p.2 :: q.2)

/-- The point that `PositionTracker.update` accepts for classification on a
given detection result, mirroring the branch structure of `update`: `none`
when the tick routes to `_handle_no_detection` (not detected, head zone, or
edge margin), `some x` when `x` reaches the consecutive-count logic. -/
def acceptedPoint (cfg : TrackerConfig) (d : DetectionResult) : Option ℚ :=
  if d.detected = false then none
  else
    match calculate_finger_tip d.keypoints d.width d.height with
    | some (fx, fy) =>
        if fy < cfg.head_zone then none
        else if is_edge_position cfg fx then none
        else some fx
    | none =>
        if is_edge_position cfg d.point_x then none
        else some d.point_x

/-- A detection result is a detected, non-edge, non-head-zone tick that
classifies to zone `z`. -/
def classifiesTo (cfg : TrackerConfig) (d : DetectionResult)
    (z : FingerPosition) : Prop :=
  (acceptedPoint cfg d).map (determine_position cfg) = some z

instance (cfg : TrackerConfig) (d : DetectionResult) (z : FingerPosition) :
    Decidable (classifiesTo cfg d z) :=
  inferInstanceAs
    (Decidable ((acceptedPoint cfg d).map (determine_position cfg) = some z))

lemma classifiesTo_elim {cfg : TrackerConfig} {d : DetectionResult}
    {z : FingerPosition} (h : classifiesTo cfg d z) :
    ∃ x, acceptedPoint cfg d = some x ∧ determine_position cfg x = z := by
  unfold classifiesTo at h
  cases hx : acceptedPoint cfg d with
  | none => rw [hx] at h; exact absurd h (by simp)
  | some x =>
    rw [hx] at h
    exact ⟨x, rfl, by simpa using h⟩

/-- On a tick whose point is accepted, `update` runs the classification branch
on that point (the accepted point is never in the edge margin). -/
lemma update_accepted {cfg : TrackerConfig} {d : DetectionResult} {x : ℚ}
    (h : acceptedPoint cfg d = some x) (s : TrackerState) :
    is_edge_position cfg x = false ∧
    ∃ uf ft, PositionTracker.update cfg s d = process_point cfg s x uf ft := by
  unfold acceptedPoint at h
  unfold PositionTracker.update
  by_cases hd : d.detected = false
  · rw [if_pos hd] at h; exact absurd h (by simp)
  · rw [if_neg hd] at h
    rw [if_neg hd]
    cases hcf : calculate_finger_tip d.keypoints d.width d.height with
    | none =>
      rw [hcf] at h
      by_cases he : is_edge_position cfg d.point_x
      · rw [if_pos he] at h; exact absurd h (by simp)
      · rw [if_neg he] at h
        obtain rfl : d.point_x = x := Option.some.inj h
        exact ⟨by simpa using he, false, none, rfl⟩
    | some p =>
      obtain ⟨fx, fy⟩ := p
      rw [hcf] at h
      dsimp only at h ⊢
      by_cases hh : fy < cfg.head_zone
      · rw [if_pos hh] at h; exact absurd h (by simp)
      · rw [if_neg hh] at h
        rw [if_neg hh]
        by_cases he : is_edge_position cfg fx
        · rw [if_pos he] at h; exact absurd h (by simp)
        · rw [if_neg he] at h
          obtain rfl : fx = x := Option.some.inj h
          exact ⟨by simpa using he, true, some (fx, fy), rfl⟩

/-- Closed form of the classification branch for a non-edge point. -/
lemma process_point_spec (cfg : TrackerConfig) (s : TrackerState) (x : ℚ)
    (uf : Bool) (ft : Option (ℚ × ℚ))
    (hedge : is_edge_position cfg x = false) :
    process_point cfg s x uf ft =
      (let candidate := determine_position cfg x
       let c := if some candidate = s.current_candidate then
                  s.consecutive_count + 1 else 1
       ({ no_detection_count := 0
          last_stable_position :=
            if cfg.required_consecutive ≤ c then candidate
            else s.last_stable_position
          current_candidate := some candidate
          consecutive_count := c },
        { position :=
            if cfg.required_consecutive ≤ c then candidate
            else s.last_stable_position
          progress :=
            if cfg.required_consecutive ≤ c then 1
            else min 1 ((c : ℚ) / cfg.required_consecutive)
          is_stable := decide (cfg.required_consecutive ≤ c)
          debug_info := .detection x candidate c uf ft })) := by
  unfold process_point
  simp only [hedge, Bool.false_eq_true, if_false]
  by_cases hc : cfg.required_consecutive ≤
      (if some (determine_position cfg x) = s.current_candidate then
        s.consecutive_count + 1 else 1)
  · simp [hc]
  · simp [hc]

/-- One good tick: full characterization of state and output fields as a
function of the incoming consecutive count. -/
lemma update_good {cfg : TrackerConfig} {d : DetectionResult}
    {z : FingerPosition} (h : classifiesTo cfg d z) (s : TrackerState) :
    let c := if some z = s.current_candidate then s.consecutive_count + 1
             else 1
    (PositionTracker.update cfg s d).1.no_detection_count = 0 ∧
    (PositionTracker.update cfg s d).1.current_candidate = some z ∧
    (PositionTracker.update cfg s d).1.consecutive_count = c ∧
    (PositionTracker.update cfg s d).1.last_stable_position =
      (if cfg.required_consecutive ≤ c then z else s.last_stable_position) ∧
    (PositionTracker.update cfg s d).2.position =
      (if cfg.required_consecutive ≤ c then z else s.last_stable_position) ∧
    (PositionTracker.update cfg s d).2.progress =
      (if cfg.required_consecutive ≤ c then 1
       else min 1 ((c : ℚ) / cfg.required_consecutive)) ∧
    (PositionTracker.update cfg s d).2.is_stable =
      decide (cfg.required_consecutive ≤ c) := by
  obtain ⟨x, hx, hz⟩ := classifiesTo_elim h
  obtain ⟨hedge, uf, ft, hupd⟩ := update_accepted hx s
  rw [hupd, process_point_spec cfg s x uf ft hedge]
  simp [hz]

/-- Invariant carried along a run of ticks that all classify to `z`: after
`j ≥ 1` such ticks the candidate is `z` with consecutive count `j`, and the
stable position has flipped to `z` exactly when `j` reached the threshold
(`L` names the stable position held before the run). -/
def GoodInv (cfg : TrackerConfig) (z L : FingerPosition) (j : ℕ)
    (s : TrackerState) : Prop :=
  s.last_stable_position = (if cfg.required_consecutive ≤ j then z else L) ∧
  (if j = 0 then s.current_candidate ≠ some z
   else s.current_candidate = some z ∧ s.consecutive_count = j)

lemma update_good_inv {cfg : TrackerConfig} {z L : FingerPosition} {j : ℕ}
    {s : TrackerState} {d : DetectionResult} (h : classifiesTo cfg d z)
    (hinv : GoodInv cfg z L j s) :
    GoodInv cfg z L (j + 1) (PositionTracker.update cfg s d).1 ∧
    (PositionTracker.update cfg s d).2.position =
      (if cfg.required_consecutive ≤ j + 1 then z else L) ∧
    (PositionTracker.update cfg s d).2.is_stable =
      decide (cfg.required_consecutive ≤ j + 1) ∧
    (PositionTracker.update cfg s d).2.progress =
      (if cfg.required_consecutive ≤ j + 1 then 1
       else min 1 (((j + 1 : ℕ) : ℚ) / cfg.required_consecutive)) := by
  obtain ⟨hstable, hcand⟩ := hinv
  have hgood := update_good h s
  have hc : (if some z = s.current_candidate then s.consecutive_count + 1
             else 1) = j + 1 := by
    by_cases hj : j = 0
    · rw [if_pos hj] at hcand
      rw [if_neg (fun hzz => hcand hzz.symm), hj]
    · rw [if_neg hj] at hcand
      rw [hcand.1, if_pos rfl, hcand.2]
  rw [hc] at hgood
  obtain ⟨h1, h2, h3, h4, h5, h6, h7⟩ := hgood
  have hLs : (if cfg.required_consecutive ≤ j + 1 then z
              else s.last_stable_position) =
      (if cfg.required_consecutive ≤ j + 1 then z else L) := by
    by_cases hR : cfg.required_consecutive ≤ j + 1
    · rw [if_pos hR, if_pos hR]
    · rw [if_neg hR, if_neg hR, hstable,
        if_neg (fun hRj => hR (le_trans hRj (Nat.le_succ j)))]
  refine ⟨⟨?_, ?_⟩, ?_, h7, by simpa using h6⟩
  · rw [h4, hLs]
  · rw [if_neg (Nat.succ_ne_zero j), h2, h3]
    exact ⟨rfl, rfl⟩
  · rw [h5, hLs]

lemma trackerRun_good (cfg : TrackerConfig) (z L : FingerPosition)
    (ds : List DetectionResult) :
    (∀ d ∈ ds, classifiesTo cfg d z) →
    ∀ (j : ℕ) (s : TrackerState), GoodInv cfg z L j s →
    ∀ (k : ℕ), k < ds.length →
    ∃ r, ((trackerRun cfg s ds).2)[k]? = some r ∧
      r.position = (if cfg.required_consecutive ≤ j + k + 1 then z else L) ∧
      r.is_stable = decide (cfg.required_consecutive ≤ j + k + 1) ∧
      r.progress = (if cfg.required_consecutive ≤ j + k + 1 then 1
        else min 1 (((j + k + 1 : ℕ) : ℚ) / cfg.required_consecutive)) := by
  induction ds with
  | nil => intro _ j s _ k hk; simp at hk
  | cons d ds ih =>
    intro hall j s hinv k hk
    have hd : classifiesTo cfg d z := hall d (by simp)
    obtain ⟨hinv2, hpos, hstab, hprog⟩ := update_good_inv hd hinv
    cases k with
    | zero =>
      refine ⟨(PositionTracker.update cfg s d).2, ?_, ?_, ?_, ?_⟩
      · simp [trackerRun]
      · simpa using hpos
      · simpa using hstab
      · simpa using hprog
    | succ k =>
      obtain ⟨r, hr, h1, h2, h3⟩ :=
        ih (fun e he => hall e (by simp [he])) (j + 1)
          (PositionTracker.update cfg s d).1 hinv2 k (by simpa using hk)
      have hidx : j + 1 + k + 1 = j + (k + 1) + 1 := by omega
      rw [hidx] at h1 h2 h3
      refine ⟨r, ?_, h1, h2, h3⟩
      simpa [trackerRun] using hr

/-- C1: Position Stabilizer rising-edge debounce.  Starting from a state whose
current candidate differs from zone `z` (or is reset), feeding detected,
non-edge, non-head-zone points that classify to `z` makes the reported
position change to `z` exactly on the `required_consecutive`-th consecutive
such tick (`is_stable = true`, `progress = 1`); on every earlier tick the
reported position remains the previous stable zone with `is_stable = false`
and `progress = consecutive_count / required_consecutive`. -/
theorem C1_stabilizer_rising_edge_debounce
    (cfg : TrackerConfig) (hR : 0 < cfg.required_consecutive)
    (z : FingerPosition) (s0 : TrackerState)
    (hc : s0.current_candidate ≠ some z)
    (ds : List DetectionResult) (hds : ∀ d ∈ ds, classifiesTo cfg d z)
    (k : ℕ) (hk : k < ds.length) (hkR : k + 1 ≤ cfg.required_consecutive) :
    ∃ r, ((trackerRun cfg s0 ds).2)[k]? = some r ∧
      (if k + 1 = cfg.required_consecutive then
        r.position = z ∧ r.is_stable = true ∧ r.progress = 1
       else
        r.position = s0.last_stable_position ∧ r.is_stable = false ∧
          r.progress = ((k + 1 : ℕ) : ℚ) / cfg.required_consecutive) := by
  have hinv : GoodInv cfg z s0.last_stable_position 0 s0 := by
    refine ⟨?_, by simpa using hc⟩
    rw [if_neg (by omega)]
  obtain ⟨r, hr, h1, h2, h3⟩ :=
    trackerRun_good cfg z s0.last_stable_position ds hds 0 s0 hinv k hk
  simp only [Nat.zero_add] at h1 h2 h3
  refine ⟨r, hr, ?_⟩
  by_cases he : k + 1 = cfg.required_consecutive
  · rw [if_pos he]
    have hle : cfg.required_consecutive ≤ k + 1 := le_of_eq he.symm
    rw [if_pos hle] at h1 h3
    exact ⟨h1, by rw [h2]; exact decide_eq_true hle, h3⟩
  · rw [if_neg he]
    have hlt : k + 1 < cfg.required_consecutive := lt_of_le_of_ne hkR he
    have hnle : ¬ cfg.required_consecutive ≤ k + 1 := by omega
    rw [if_neg hnle] at h1 h3
    refine ⟨h1, by simp [h2, hnle], ?_⟩
    rw [h3, min_eq_right]
    rw [div_le_one (by exact_mod_cast hR)]
    exact_mod_cast le_of_lt hlt

/-- A concrete detected, non-edge, non-head-zone tick classifying to `left`
(the empty keypoint list routes `update` to the `point_x` fallback). -/
def sampleLeftDetection : DetectionResult :=
  { detected := true, point_x := 1/5, point_y := 0, keypoints := [],
    width := 0, height := 0, person_count := 1, primary_person_area := 0 }

/-- Witness for C1: with the default configuration
(`required_consecutive = 5`), five consecutive `x = 0.2` ticks from the reset
state make the fifth output stable `left` with progress 1. -/
theorem C1_stabilizer_witness :
    ∃ r, ((trackerRun defaultTrackerConfig initTrackerState
      (List.replicate 5 sampleLeftDetection)).2)[4]? = some r ∧
      r.position = .left ∧ r.is_stable = true ∧ r.progress = 1 := by
  have h := C1_stabilizer_rising_edge_debounce defaultTrackerConfig (by decide)
    .left initTrackerState (by decide) (List.replicate 5 sampleLeftDetection)
    (by decide) 4 (by decide) (by decide)
  simpa [defaultTrackerConfig] using h

/-- The confidence entry of keypoint `i`, 0 when the keypoint or its
confidence slot is absent — exactly the `kp[2] if len(kp) > 2 else 0` read in
`_calculate_finger_tip`. -/
def keypointConf (keypoints : List (List ℚ)) (i : ℕ) : ℚ :=
  (keypoints.getD i []).getD 2 0

/-- A detected result whose eleven keypoints all carry confidence 0.2
(so neither wrist clears the 0.3 minimum), with a mid-screen `point_x`. -/
def lowWristDetection : DetectionResult :=
  { detected := true, point_x := 1/2, point_y := 0,
    keypoints := List.replicate 11 [0, 0, 1/5],
    width := 100, height := 100, person_count := 1,
    primary_person_area := 0 }

/-- Counterexample to C2: on a detected tick where neither wrist clears the
0.3 confidence threshold, `PositionTracker.update` does not take the
no-detection path — the no-detection counter stays 0 and the mid-screen
`point_x` is classified as a `center` candidate. -/
theorem C2_counterexample :
    lowWristDetection.detected = true ∧
    keypointConf lowWristDetection.keypoints 9 ≤ 3/10 ∧
    keypointConf lowWristDetection.keypoints 10 ≤ 3/10 ∧
    (PositionTracker.update defaultTrackerConfig initTrackerState
      lowWristDetection).1.no_detection_count = 0 ∧
    (PositionTracker.update defaultTrackerConfig initTrackerState
      lowWristDetection).1.current_candidate = some .center := by
  decide

/-- When neither wrist clears the 0.3 threshold the finger-tip extrapolation
yields no point (COCO indices 9 and 10 are the wrists). -/
lemma calculate_finger_tip_none {keypoints : List (List ℚ)} {w h : ℚ}
    (h9 : keypointConf keypoints 9 ≤ 3/10)
    (h10 : keypointConf keypoints 10 ≤ 3/10) :
    calculate_finger_tip keypoints w h = none := by
  unfold calculate_finger_tip
  by_cases hg : keypoints.isEmpty ∨ keypoints.length < 11 ∨ w = 0 ∨ h = 0
  · rw [if_pos hg]
  · rw [if_neg hg]
    have score_le : ∀ i : ℕ, keypointConf keypoints i ≤ 3/10 →
        ¬ ((3:ℚ)/10 < (if 2 < (keypoints.getD i []).length then
          (keypoints.getD i []).getD 2 0 else 0)) := by
      intro i hi
      split
      · exact not_lt.mpr hi
      · norm_num
    have hA := score_le 10 h10
    have hB := score_le 9 h9
    dsimp only
    rw [if_neg (fun hab => hA hab.1), if_neg hA, if_neg hB]

/-- C2 (amended): for every detected result whose keypoints give neither
wrist a confidence above the 0.3 minimum, `_calculate_finger_tip` returns no
point and `update` falls back to classifying the detector's `point_x` (the
simple wrist point); the tick is treated as not detected only when that
`point_x` lies inside the edge margins. -/
theorem C2_wrist_threshold_fallback (cfg : TrackerConfig) (s : TrackerState)
    (d : DetectionResult) (hdet : d.detected = true)
    (h9 : keypointConf d.keypoints 9 ≤ 3/10)
    (h10 : keypointConf d.keypoints 10 ≤ 3/10) :
    calculate_finger_tip d.keypoints d.width d.height = none ∧
    PositionTracker.update cfg s d =
      (if is_edge_position cfg d.point_x then handle_no_detection cfg s
       else process_point cfg s d.point_x false none) := by
  have hnone := calculate_finger_tip_none (w := d.width) (h := d.height) h9 h10
  refine ⟨hnone, ?_⟩
  unfold PositionTracker.update
  rw [if_neg (by rw [hdet]; exact fun hIsFalse => by simp at hIsFalse), hnone]
  by_cases he : is_edge_position cfg d.point_x
  · rw [if_pos he]
    unfold process_point
    rw [if_pos he]
  · rw [if_neg he]

/-- Witness for the amended C2 at a concrete low-confidence detection. -/
theorem C2_wrist_threshold_fallback_witness :
    calculate_finger_tip lowWristDetection.keypoints lowWristDetection.width
      lowWristDetection.height = none ∧
    PositionTracker.update defaultTrackerConfig initTrackerState
        lowWristDetection =
      (if is_edge_position defaultTrackerConfig lowWristDetection.point_x then
        handle_no_detection defaultTrackerConfig initTrackerState
       else process_point defaultTrackerConfig initTrackerState
        lowWristDetection.point_x false none) :=
  C2_wrist_threshold_fallback defaultTrackerConfig initTrackerState
    lowWristDetection (by decide) (by decide) (by decide)

/-! ## Gesture validator (`src/core/gesture_validator.py`)

`time.time()` reads become an explicit `now : ℚ` argument (the second read in
`_confirm_and_lock` happens in the same tick and is identified with the
`validate` entry time). -/

/-- Constructor parameters of `GestureValidator`. -/
structure GVConfig where
  required_frames : ℕ
  confidence_threshold : ℚ
  free_class : String
  lock_duration : ℚ

/-- The default constructor arguments of `GestureValidator.__init__`
(the session supervisor overrides `lock_duration` with the same 0.5). -/
def defaultGVConfig : GVConfig :=
  { required_frames := 5
    confidence_threshold := 7/10
    free_class := "free"
    lock_duration := 1/2 }

/-- Mutable state of a `GestureValidator` instance. -/
structure GVState where
  consecutive_count : ℕ
  last_class : Option String
  locked_until : ℚ
deriving DecidableEq

/-- The state set up by `GestureValidator.__init__`. -/
def initGVState : GVState :=
  { consecutive_count := 0, last_class := none, locked_until := 0 }

/-- The prediction dict consumed by `validate` (the unused `all_scores` list
is omitted). -/
structure Prediction where
  class_name : String
  confidence : ℚ
deriving DecidableEq

/-- `GestureValidator._reset_streak`. -/
def reset_streak (s : GVState) : GVState :=
  { s with consecutive_count := 0, last_class := none }

/-- `GestureValidator._confirm_and_lock`. -/
def confirm_and_lock (cfg : GVConfig) (s : GVState) (now : ℚ) : GVState :=
  { reset_streak s with locked_until := now + cfg.lock_duration }

/-- `GestureValidator.validate`. -/
def GestureValidator.validate (cfg : GVConfig) (s : GVState) (now : ℚ) :
    Option Prediction → GVState × Option String
  | none => (s, none)
  | some p =>
    if now < s.locked_until then
      if p.class_name = cfg.free_class then
        ({ s with locked_until := 0 }, none)
      else (s, none)
    else if p.confidence < cfg.confidence_threshold ∨
        p.class_name = cfg.free_class then
      (reset_streak s, none)
    else
      let s1 :=
        if some p.class_name = s.last_class then
          { s with consecutive_count := s.consecutive_count + 1 }
        else
          { s with consecutive_count := 1, last_class := some p.class_name }
      if cfg.required_frames ≤ s1.consecutive_count then
        (confirm_and_lock cfg s1 now, some p.class_name)
      else (s1, none)

/-- `GestureValidator.force_reset`. -/
def GestureValidator.force_reset (cfg : GVConfig) (s : GVState) (now : ℚ) :
    GVState :=
  { reset_streak s with locked_until := now + cfg.lock_duration }

/-- Iterated `validate` over a list of `(now, prediction)` calls, collecting
the per-call return values. -/
def gvRun (cfg : GVConfig) (s : GVState) :
    List (ℚ × Option Prediction) → GVState × List (Option String)
  | [] => (s, [])
  | c :: cs =>
    let p := GestureValidator.validate cfg s c.1 c.2
    let q := gvRun cfg p.1 cs
    (q.1, p.2 :: q.2)

/-- C3: Gesture Validator lock semantics.  Every `validate` call made while
the lock is active (`now < locked_until`) returns no gesture, for every input
prediction; if the prediction carries the neutral/free class, that same call
clears `locked_until` to 0 so subsequent calls (at any nonnegative time) are
unlocked, but the releasing call itself still returns no gesture. -/
theorem C3_validator_lock_semantics (cfg : GVConfig) (s : GVState) (now : ℚ)
    (p : Option Prediction) (hlock : now < s.locked_until) :
    (GestureValidator.validate cfg s now p).2 = none ∧
    (∀ q : Prediction, p = some q → q.class_name = cfg.free_class →
      (GestureValidator.validate cfg s now p).1.locked_until = 0 ∧
      ∀ later : ℚ, 0 ≤ later →
        ¬ later < (GestureValidator.validate cfg s now p).1.locked_until) := by
  cases p with
  | none =>
    exact ⟨rfl, fun q hq => absurd hq (by simp)⟩
  | some q =>
    simp only [GestureValidator.validate]
    rw [if_pos hlock]
    by_cases hfree : q.class_name = cfg.free_class
    · rw [if_pos hfree]
      refine ⟨rfl, fun q2 hq2 _ => ⟨rfl, fun later hlater => ?_⟩⟩
      simpa using not_lt.mpr hlater
    · rw [if_neg hfree]
      refine ⟨rfl, fun q2 hq2 hfc => absurd hfc ?_⟩
      rw [← Option.some.inj hq2]
      exact hfree

/-- Witness for C3: a concrete locked call with a free-class prediction
returns no gesture and clears the lock, so a later call at time 4 is
unlocked. -/
theorem C3_validator_lock_witness :
    (GestureValidator.validate defaultGVConfig
      { consecutive_count := 2, last_class := some "left", locked_until := 5 }
      3 (some { class_name := "free", confidence := 1 })).2 = none ∧
    (GestureValidator.validate defaultGVConfig
      { consecutive_count := 2, last_class := some "left", locked_until := 5 }
      3 (some { class_name := "free", confidence := 1 })).1.locked_until =
      0 ∧
    ¬ (4 : ℚ) < (GestureValidator.validate defaultGVConfig
      { consecutive_count := 2, last_class := some "left", locked_until := 5 }
      3 (some { class_name := "free", confidence := 1 })).1.locked_until := by
  have h := C3_validator_lock_semantics defaultGVConfig
    { consecutive_count := 2, last_class := some "left", locked_until := 5 }
    3 (some { class_name := "free", confidence := 1 }) (by decide)
  have h2 := h.2 { class_name := "free", confidence := 1 } rfl rfl
  exact ⟨h.1, h2.1, h2.2 4 (by decide)⟩

/-- One `validate` call grows the consecutive count by at most one, and a
gesture is emitted only when the count (after growing) has reached
`required_frames`. -/
lemma validate_count_step (cfg : GVConfig) (s : GVState) (now : ℚ)
    (p : Option Prediction) :
    (GestureValidator.validate cfg s now p).1.consecutive_count ≤
      s.consecutive_count + 1 ∧
    ((GestureValidator.validate cfg s now p).2 ≠ none →
      cfg.required_frames ≤ s.consecutive_count + 1) := by
  cases p with
  | none => exact ⟨Nat.le_succ _, fun hne => absurd rfl hne⟩
  | some q =>
    simp only [GestureValidator.validate]
    by_cases hlock : now < s.locked_until
    · rw [if_pos hlock]
      by_cases hfree : q.class_name = cfg.free_class
      · rw [if_pos hfree]; exact ⟨Nat.le_succ _, fun hne => absurd rfl hne⟩
      · rw [if_neg hfree]; exact ⟨Nat.le_succ _, fun hne => absurd rfl hne⟩
    · rw [if_neg hlock]
      by_cases hrej : q.confidence < cfg.confidence_threshold ∨
          q.class_name = cfg.free_class
      · rw [if_pos hrej]
        exact ⟨Nat.zero_le _, fun hne => absurd rfl hne⟩
      · rw [if_neg hrej]
        by_cases hsame : some q.class_name = s.last_class
        · rw [if_pos hsame]
          by_cases hreq : cfg.required_frames ≤ s.consecutive_count + 1
          · rw [if_pos hreq]
            exact ⟨Nat.zero_le _, fun _ => hreq⟩
          · rw [if_neg hreq]
            exact ⟨le_rfl, fun hne => absurd rfl hne⟩
        · rw [if_neg hsame]
          by_cases hreq : cfg.required_frames ≤ 1
          · rw [if_pos hreq]
            exact ⟨Nat.zero_le _, fun _ => le_trans hreq (by omega)⟩
          · rw [if_neg hreq]
            exact ⟨Nat.succ_le_succ (Nat.zero_le _), fun hne => absurd rfl hne⟩

/-- Along any run that is too short to rebuild a streak from `count = 0`, no
gesture is emitted. -/
lemma gvRun_no_emission (cfg : GVConfig) :
    ∀ (calls : List (ℚ × Option Prediction)) (s : GVState) (j : ℕ),
      s.consecutive_count ≤ j → j + calls.length < cfg.required_frames →
      ∀ o ∈ (gvRun cfg s calls).2, o = none := by
  intro calls
  induction calls with
  | nil => intro s j _ _ o ho; simp [gvRun] at ho
  | cons c cs ih =>
    intro s j hsj hlen o ho
    obtain ⟨hstep, hemit⟩ := validate_count_step cfg s c.1 c.2
    simp only [List.length_cons] at hlen
    simp only [gvRun, List.mem_cons] at ho
    rcases ho with ho | ho
    · subst ho
      by_contra hne
      have := hemit hne
      omega
    · exact ih (GestureValidator.validate cfg s c.1 c.2).1 (j + 1)
        (by omega) (by omega) o ho

/-- C4: after any `force_reset`, the consecutive count is zero and a fresh
lock window of `lock_duration` is armed; whatever the next calls are, no
gesture can be emitted on any of the next `required_frames − 1` calls (at
least `required_frames` further calls are needed before any emission). -/
theorem C4_force_reset_restarts_streak (cfg : GVConfig) (s : GVState)
    (now : ℚ) :
    (GestureValidator.force_reset cfg s now).consecutive_count = 0 ∧
    (GestureValidator.force_reset cfg s now).locked_until =
      now + cfg.lock_duration ∧
    ∀ calls : List (ℚ × Option Prediction),
      calls.length < cfg.required_frames →
      ∀ o ∈ (gvRun cfg (GestureValidator.force_reset cfg s now) calls).2,
        o = none := by
  refine ⟨rfl, rfl, fun calls hlen o ho => ?_⟩
  exact gvRun_no_emission cfg calls _ 0 (le_refl 0) (by omega) o ho

/-- Four matching, full-confidence, unlocked calls following a reset. -/
def sampleGestureCalls : List (ℚ × Option Prediction) :=
  [(10, some { class_name := "left", confidence := 1 }),
   (11, some { class_name := "left", confidence := 1 }),
   (12, some { class_name := "left", confidence := 1 }),
   (13, some { class_name := "left", confidence := 1 })]

/-- Witness for C4: a concrete reset followed by four matching,
full-confidence calls emits nothing. -/
theorem C4_force_reset_witness :
    (gvRun defaultGVConfig
      (GestureValidator.force_reset defaultGVConfig initGVState 0)
      sampleGestureCalls).2 = List.replicate 4 none := by
  have h := (C4_force_reset_restarts_streak defaultGVConfig initGVState
    0).2.2 sampleGestureCalls (by decide)
  exact List.eq_replicate_iff.mpr ⟨by decide, h⟩

/-! ## Session supervisor (`src/core/session_supervisor.py`) -/

/-- The `ignore_states` list of `handle_absence`. -/
def ignore_states : List String :=
  ["FaceAlignmentState", "UserAbsentWarningState", "WelcomeState"]

/-- Python truthiness of the optional `normal_area` float (`None` and `0.0`
are falsy). -/
def areaTruthy : Option ℚ → Bool
  | none => false
  | some a => if a = 0 then false else true

/-- The numeric value standing behind `normal_area` when it is read
(only meaningful when truthy). -/
def areaVal : Option ℚ → ℚ
  | none => 0
  | some a => a

/-- Session state held by `SessionSupervisor.__init__` (`ema_alpha` is the
literal 0.05; the validator built with the config thresholds lives in `gv`;
`det_history` stores the 0/1 presence bits). -/
structure SupState where
  gv : GVState
  normal_area : Option ℚ
  absence_frames : ℕ
  grace_period_frames : ℕ
  det_history : List ℕ
  last_trigger_gesture : Option String
deriving DecidableEq

/-- The session state set up by `SessionSupervisor.__init__`. -/
def initSupState : SupState :=
  { gv := initGVState, normal_area := none, absence_frames := 0,
    grace_period_frames := 0, det_history := [],
    last_trigger_gesture := none }

/-- The `max_consecutive` loop of the intermittent-loss check: longest
unbroken run of 1-bits, folding `(max_so_far, current_run)`. -/
def max_consecutive_run (hist : List ℕ) : ℕ :=
  (hist.foldl
    (fun acc d =>
      if d = 1 then (max acc.1 (acc.2 + 1), acc.2 + 1) else (acc.1, 0))
    ((0 : ℕ), (0 : ℕ))).1

/-- `SessionSupervisor.handle_absence`.  `current_state_name` (read from the
state machine) and the controller's `is_exiting` flag are reads of
collaborators, passed as arguments; the returned `Bool` models whether
`UserAbsentWarningState` is returned (`true`) or `None` (`false`). -/
def SessionSupervisor.handle_absence (current_state_name : String)
    (is_exiting : Bool) (s : SupState) (d : DetectionResult) :
    SupState × Bool :=
  if is_exiting = true ∨ current_state_name ∈ ignore_states then (s, false)
  else if 0 < s.grace_period_frames then
    ({ s with grace_period_frames := s.grace_period_frames - 1 }, false)
  else if 2 ≤ d.person_count then (s, false)
  else
    let area := d.primary_person_area
    let hist1 := s.det_history ++ [if 0 < d.person_count then 1 else 0]
    let hist := if 60 < hist1.length then hist1.tail else hist1
    let afs_na_susp : ℕ × Option ℚ × Bool :=
      if d.person_count = 0 then
        (s.absence_frames + 1, s.normal_area,
         decide (45 ≤ s.absence_frames + 1))
      else if areaTruthy s.normal_area ∧
          area < areaVal s.normal_area * (2/5) then
        (s.absence_frames + 1, s.normal_area,
         decide (45 ≤ s.absence_frames + 1))
      else
        (0,
         if areaTruthy s.normal_area ∧
             |area - areaVal s.normal_area| <
               areaVal s.normal_area * (3/20) then
           some ((1/20) * area + (1 - 1/20) * areaVal s.normal_area)
         else s.normal_area,
         false)
    let suspicious_int : Bool :=
      if hist.length = 60 then
        decide ((hist.sum : ℚ) / 60 ≤ 1/5) &&
          decide (max_consecutive_run hist < 5)
      else false
    ({ s with det_history := hist,
              absence_frames := afs_na_susp.1,
              normal_area := afs_na_susp.2.1 },
     afs_na_susp.2.2 || suspicious_int)

/-- Iterated `handle_absence` over a list of detection results, collecting
the per-tick suspicion signals. -/
def supAbsenceRun (name : String) (ex : Bool) (s : SupState) :
    List DetectionResult → SupState × List Bool
  | [] => (s, [])
  | d :: ds =>
    let p := SessionSupervisor.handle_absence name ex s d
    let q := supAbsenceRun name ex p.1 ds
    (q.1, p.2 :: q.2)

/-- One zero-person tick from a graceless, non-ignored, unseeded state. -/
lemma handle_absence_zero_step {name : String}
    (hn : ¬ name ∈ ignore_states) (g : GVState) (lt : Option String)
    (h : List ℕ) (a : ℕ) (hh : h.length ≤ 58) {d : DetectionResult}
    (hd : d.person_count = 0) :
    SessionSupervisor.handle_absence name false ⟨g, none, a, 0, h, lt⟩ d =
      (⟨g, none, a + 1, 0, h ++ [0], lt⟩, decide (45 ≤ a + 1)) := by
  have hbit : (if 0 < d.person_count then (1 : ℕ) else 0) = 0 :=
    if_neg (by omega)
  unfold SessionSupervisor.handle_absence
  rw [if_neg (show ¬ (false = true ∨ name ∈ ignore_states) from
      by simp [hn])]
  rw [if_neg (show ¬ (0 : ℕ) < 0 from by omega)]
  rw [if_neg (show ¬ 2 ≤ d.person_count from by omega)]
  dsimp only
  rw [hbit]
  rw [if_pos hd]
  rw [if_neg (show ¬ 60 < (h ++ [(0 : ℕ)]).length from by
      simp only [List.length_append, List.length_singleton]; omega)]
  rw [if_neg (show ¬ (h ++ [(0 : ℕ)]).length = 60 from by
      simp only [List.length_append, List.length_singleton]; omega)]
  simp

/-- One present-person tick (any `person_count ≥ 1`) from a graceless,
non-ignored, unseeded state yields no suspicion signal. -/
lemma handle_absence_present_step {name : String}
    (hn : ¬ name ∈ ignore_states) (g : GVState) (lt : Option String)
    (h : List ℕ) (a : ℕ) (hh : h.length ≤ 58) {d : DetectionResult}
    (hd : 1 ≤ d.person_count) :
    (SessionSupervisor.handle_absence name false ⟨g, none, a, 0, h, lt⟩
      d).2 = false := by
  unfold SessionSupervisor.handle_absence
  rw [if_neg (show ¬ (false = true ∨ name ∈ ignore_states) from
      by simp [hn])]
  rw [if_neg (show ¬ (0 : ℕ) < 0 from by omega)]
  by_cases h2 : 2 ≤ d.person_count
  · rw [if_pos h2]
  · have hbit : (if 0 < d.person_count then (1 : ℕ) else 0) = 1 :=
      if_pos (by omega)
    rw [if_neg h2]
    dsimp only
    rw [hbit]
    rw [if_neg (show ¬ 60 < (h ++ [(1 : ℕ)]).length from by
        simp only [List.length_append, List.length_singleton]; omega)]
    rw [if_neg (show ¬ d.person_count = 0 from by omega)]
    rw [if_neg (show ¬ (areaTruthy none = true ∧
        d.primary_person_area < areaVal none * (2/5)) from by
      simp [areaTruthy])]
    rw [if_neg (show ¬ (h ++ [(1 : ℕ)]).length = 60 from by
        simp only [List.length_append, List.length_singleton]; omega)]
    simp

/-- A run of zero-person ticks from an unseeded graceless state: the history
accumulates 0-bits, the absence counter climbs by one per tick, and the
suspicion signal fires exactly on the ticks where it reaches 45. -/
lemma supAbsenceRun_zeros {name : String} (hn : ¬ name ∈ ignore_states) :
    ∀ (ds : List DetectionResult), (∀ d ∈ ds, d.person_count = 0) →
    ∀ (g : GVState) (lt : Option String) (h : List ℕ) (a : ℕ),
      h.length + ds.length ≤ 59 →
    supAbsenceRun name false ⟨g, none, a, 0, h, lt⟩ ds =
      (⟨g, none, a + ds.length, 0, h ++ List.replicate ds.length 0, lt⟩,
       (List.range ds.length).map (fun i => decide (45 ≤ a + i + 1))) := by
  intro ds
  induction ds with
  | nil =>
    intro _ g lt h a _
    simp [supAbsenceRun]
  | cons d ds ih =>
    intro hall g lt h a hlen
    simp only [List.length_cons] at hlen
    have hstep := handle_absence_zero_step hn g lt h a (by omega)
      (hall d (by simp))
    have hrec := ih (fun e he => hall e (by simp [he])) g lt (h ++ [0])
      (a + 1)
      (by simp only [List.length_append, List.length_singleton]; omega)
    have e1 : a + 1 + ds.length = a + (ds.length + 1) := by omega
    have e2 : (h ++ [(0 : ℕ)]) ++ List.replicate ds.length 0 =
        h ++ List.replicate (ds.length + 1) 0 := by
      rw [List.append_assoc, List.singleton_append, ← List.replicate_succ]
    have e3 : (List.range (ds.length + 1)).map
          (fun i => decide (45 ≤ a + i + 1)) =
        decide (45 ≤ a + 1) :: (List.range ds.length).map
          (fun i => decide (45 ≤ a + 1 + i + 1)) := by
      rw [List.range_succ_eq_map, List.map_cons, List.map_map]
      show decide (45 ≤ a + 0 + 1) :: _ = _
      rw [Nat.add_zero]
      refine congrArg (List.cons _) ?_
      refine List.map_congr_left (fun i _ => ?_)
      show decide (45 ≤ a + (i + 1) + 1) = decide (45 ≤ a + 1 + i + 1)
      rw [decide_eq_decide]
      omega
    simp only [supAbsenceRun, hstep]
    rw [hrec, List.length_cons, e1, e2, e3]

/-- `supAbsenceRun` over an appended run splits into two runs. -/
lemma supAbsenceRun_append (name : String) (ex : Bool) (s : SupState)
    (l1 l2 : List DetectionResult) :
    supAbsenceRun name ex s (l1 ++ l2) =
      ((supAbsenceRun name ex (supAbsenceRun name ex s l1).1 l2).1,
       (supAbsenceRun name ex s l1).2 ++
         (supAbsenceRun name ex (supAbsenceRun name ex s l1).1 l2).2) := by
  induction l1 generalizing s with
  | nil => simp [supAbsenceRun]
  | cons d ds ih =>
    simp only [List.cons_append, supAbsenceRun]
    simp only [List.append_eq]
    rw [ih]

/-- C5: Session Supervisor full-disappearance threshold.  From the fresh
supervisor state, with any non-ignored current state and the controller not
exiting: 45 consecutive `person_count = 0` results produce the warning-state
signal exactly on the 45th call (and on no earlier one); 44 such results
followed by one result with a person present produce no suspicion signal on
any of the 45 calls. -/
theorem C5_full_disappearance_threshold (name : String)
    (hn : ¬ name ∈ ignore_states)
    (ds45 : List DetectionResult) (h45 : ds45.length = 45)
    (hz45 : ∀ d ∈ ds45, d.person_count = 0)
    (ds44 : List DetectionResult) (h44 : ds44.length = 44)
    (hz44 : ∀ d ∈ ds44, d.person_count = 0)
    (dp : DetectionResult) (hp : 1 ≤ dp.person_count) :
    (supAbsenceRun name false initSupState ds45).2 =
      List.replicate 44 false ++ [true] ∧
    (supAbsenceRun name false initSupState (ds44 ++ [dp])).2 =
      List.replicate 45 false := by
  have hinit : initSupState = ⟨initGVState, none, 0, 0, [], none⟩ := rfl
  constructor
  · have h := supAbsenceRun_zeros hn ds45 hz45 initGVState none [] 0
      (by rw [h45]; decide)
    rw [hinit, h, h45]
    decide
  · have h := supAbsenceRun_zeros hn ds44 hz44 initGVState none [] 0
      (by rw [h44]; decide)
    have hlast := handle_absence_present_step hn initGVState none
      ([] ++ List.replicate 44 0) (0 + 44) (by decide) hp
    rw [hinit, supAbsenceRun_append, h, h44]
    simp only [supAbsenceRun, hlast]
    decide

/-- A concrete result with nobody in frame. -/
def zeroPersonDetection : DetectionResult :=
  { detected := false, point_x := 0, point_y := 0, keypoints := [],
    width := 0, height := 0, person_count := 0, primary_person_area := 0 }

/-- A concrete result with one person present. -/
def onePersonDetection : DetectionResult :=
  { detected := true, point_x := 1/2, point_y := 1/2, keypoints := [],
    width := 0, height := 0, person_count := 1, primary_person_area := 1/2 }

/-- Witness for C5 on concrete runs from the menu state. -/
theorem C5_full_disappearance_witness :
    (supAbsenceRun "MenuState" false initSupState
      (List.replicate 45 zeroPersonDetection)).2 =
      List.replicate 44 false ++ [true] ∧
    (supAbsenceRun "MenuState" false initSupState
      (List.replicate 44 zeroPersonDetection ++ [onePersonDetection])).2 =
      List.replicate 45 false :=
  C5_full_disappearance_threshold "MenuState" (by decide)
    (List.replicate 45 zeroPersonDetection) (by decide) (by decide)
    (List.replicate 44 zeroPersonDetection) (by decide) (by decide)
    onePersonDetection (by decide)

/-- C6: EMA baseline protection.  `handle_absence` changes `normal_area` only
on a tick where exactly one person is present, the area is not in the
shrinkage range (`area ≥ 0.4 × normal_area`) and `|area − normal_area| <
0.15 × normal_area`; on every other tick `normal_area` is left unchanged. -/
theorem C6_ema_baseline_protection (name : String) (ex : Bool)
    (s : SupState) (d : DetectionResult)
    (hch : (SessionSupervisor.handle_absence name ex s d).1.normal_area ≠
      s.normal_area) :
    d.person_count = 1 ∧
    ∃ v, s.normal_area = some v ∧
      v * (2/5) ≤ d.primary_person_area ∧
      |d.primary_person_area - v| < v * (3/20) := by
  unfold SessionSupervisor.handle_absence at hch
  by_cases h1 : ex = true ∨ name ∈ ignore_states
  · rw [if_pos h1] at hch; exact absurd rfl hch
  · rw [if_neg h1] at hch
    by_cases h2 : 0 < s.grace_period_frames
    · rw [if_pos h2] at hch; exact absurd rfl hch
    · rw [if_neg h2] at hch
      by_cases h3 : 2 ≤ d.person_count
      · rw [if_pos h3] at hch; exact absurd rfl hch
      · rw [if_neg h3] at hch
        dsimp only at hch
        by_cases h4 : d.person_count = 0
        · rw [if_pos h4] at hch; exact absurd rfl hch
        · rw [if_neg h4] at hch
          by_cases h5 : areaTruthy s.normal_area = true ∧
              d.primary_person_area < areaVal s.normal_area * (2/5)
          · rw [if_pos h5] at hch; exact absurd rfl hch
          · rw [if_neg h5] at hch
            by_cases h6 : areaTruthy s.normal_area = true ∧
                |d.primary_person_area - areaVal s.normal_area| <
                  areaVal s.normal_area * (3/20)
            · obtain ⟨ht, habs⟩ := h6
              cases hna : s.normal_area with
              | none => rw [hna] at ht; exact absurd ht (by simp [areaTruthy])
              | some v =>
                rw [hna] at h5 habs ht
                have hge : v * (2/5) ≤ d.primary_person_area := by
                  by_contra hlt
                  exact h5 ⟨ht, by simpa [areaVal] using not_le.mp hlt⟩
                exact ⟨by omega, v, rfl, hge,
                  by simpa [areaVal] using habs⟩
            · rw [if_neg h6] at hch; exact absurd rfl hch

/-- A single-person tick whose area (0.52) sits within 15% of a 0.5
baseline, so the EMA moves the baseline. -/
def emaTickDetection : DetectionResult :=
  { detected := true, point_x := 1/2, point_y := 1/2, keypoints := [],
    width := 0, height := 0, person_count := 1,
    primary_person_area := 13/25 }

/-- Witness for C6: a concrete tick that does move the baseline satisfies all
three conditions. -/
theorem C6_ema_baseline_witness :
    emaTickDetection.person_count = 1 ∧
    ∃ v, ({ initSupState with normal_area := some (1/2) } :
        SupState).normal_area = some v ∧
      v * (2/5) ≤ emaTickDetection.primary_person_area ∧
      |emaTickDetection.primary_person_area - v| < v * (3/20) :=
  C6_ema_baseline_protection "MenuState" false
    { initSupState with normal_area := some (1/2) }
    emaTickDetection (by decide)

/-! ## State machine (`src/core/state_machine.py`) and audio policy
(`src/core/audio_policy.py`)

State objects are modelled as tokens carrying their class name and a creation
stamp (the `next_id` counter stands for Python object construction).  The
calls the machine performs on states and collaborators (`on_exit`,
`on_enter`, `set_click_callback`, `update`, `play_voice`) are recorded as an
event trace. -/

/-- A constructed state object: class name plus creation stamp. -/
structure StateTok where
  cls : String
  id : ℕ
deriving DecidableEq

/-- Observable calls made by the machine on states and collaborators. -/
inductive SMEvent
  | on_exit (s : StateTok)
  | on_enter (s : StateTok) (prev : Option StateTok)
  | set_click_callback (target : Option StateTok)
  | update_dispatch (s : StateTok)
  | play_voice (key : String)
deriving DecidableEq

/-- Machine state: `current_state`, `current_state_name`, `last_audio_key`,
the modal stack (top at the end, as in the Python list), and the fresh-id
counter. -/
structure SMState where
  current_state : StateTok
  current_state_name : String
  last_audio_key : Option String
  modal_stack : List StateTok
  next_id : ℕ
deriving DecidableEq

/-- `StateMachine.__init__` given the initial state class. -/
def initSMState (initial_cls : String) : SMState :=
  { current_state := ⟨initial_cls, 0⟩, current_state_name := initial_cls,
    last_audio_key := none, modal_stack := [], next_id := 1 }

/-- `StateMachine.pop_modal`.  `hasOnClick cls` abstracts Python's
`hasattr(active, "_on_click")` for instances of class `cls`. -/
def StateMachine.pop_modal (hasOnClick : String → Bool) (m : SMState) :
    SMState × List SMEvent :=
  match m.modal_stack.getLast? with
  | none => (m, [])
  | some modal =>
    let stack2 := m.modal_stack.dropLast
    let active : StateTok :=
      match stack2.getLast? with
      | some t => t
      | none => m.current_state
    ({ m with modal_stack := stack2 },
     [SMEvent.on_exit modal,
      SMEvent.set_click_callback
        (if hasOnClick active.cls then some active else none)])

/-- The `while self.modal_stack: self.pop_modal()` loop of `change_state`,
driven by fuel (each iteration pops exactly one modal). -/
def drainModalsGo (hasOnClick : String → Bool) :
    ℕ → SMState → SMState × List SMEvent
  | 0, m => (m, [])
  | n + 1, m =>
    if m.modal_stack = [] then (m, [])
    else
      let p := StateMachine.pop_modal hasOnClick m
      let q := drainModalsGo hasOnClick n p.1
      (q.1, p.2 ++ q.2)

/-- The modal-draining loop at its natural fuel. -/
def drainModals (hasOnClick : String → Bool) (m : SMState) :
    SMState × List SMEvent :=
  drainModalsGo hasOnClick m.modal_stack.length m

/-- `StateMachine.change_state`: drain all modals, exit the current state,
construct the next state and enter it with `prev_state` set to the old
current state. -/
def StateMachine.change_state (hasOnClick : String → Bool) (m : SMState)
    (next_cls : String) : SMState × List SMEvent :=
  let p := drainModals hasOnClick m
  let prev := p.1.current_state
  let new_state : StateTok := ⟨next_cls, p.1.next_id⟩
  ({ p.1 with current_state := new_state, current_state_name := next_cls,
              next_id := p.1.next_id + 1 },
   p.2 ++ [SMEvent.on_exit prev, SMEvent.on_enter new_state (some prev)])

/-- `StateMachine.push_modal`. -/
def StateMachine.push_modal (m : SMState) (modal_cls : String) :
    SMState × List SMEvent :=
  let prev : StateTok :=
    match m.modal_stack.getLast? with
    | some t => t
    | none => m.current_state
  let modal : StateTok := ⟨modal_cls, m.next_id⟩
  ({ m with modal_stack := m.modal_stack ++ [modal],
            next_id := m.next_id + 1 },
   [SMEvent.on_enter modal (some prev)])

/-- The `shared_context` keys read by `AudioPolicy.get_audio_key`
(`pin_mode` defaults to "normal" when absent; a missing
`is_account_created` is falsy). -/
structure SharedContext where
  pin_mode : Option String
  is_account_created : Bool
deriving DecidableEq

/-- `AudioPolicy.get_audio_key`: purely declarative state-name / context to
audio-key mapping. -/
def AudioPolicy.get_audio_key (state_name : String)
    (context : SharedContext) : Option String :=
  if state_name = "FaceAlignmentState" then some "welcome"
  else if state_name = "MenuState" then some "push-button"
  else if state_name = "ConfirmationState" then some "check-screen"
  else if state_name = "WithdrawAccountInputState" then
    some "withdrawl-account"
  else if state_name = "TransferTargetInputState" then
    some "recipient-account"
  else if state_name = "CreateAccountNameInputState" then some "enter-name"
  else if state_name = "GenericAmountInputState" then some "pay-money"
  else if state_name = "PinInputState" then
    let mode := context.pin_mode.getD "normal"
    if mode = "create_1" then some "enter-new-pin"
    else if mode = "create_2" then some "enter-new-pin"
    else if mode = "retry" then some "retry-pin"
    else some "enter-pin"
  else if state_name = "ResultState" then
    if context.is_account_created then some "create-account"
    else some "come-again"
  else none

/-- The state currently receiving `update`: topmost modal, else
`current_state`. -/
def activeState (m : SMState) : StateTok :=
  match m.modal_stack.getLast? with
  | some t => t
  | none => m.current_state

/-- `StateMachine.update`: dispatch to the active state, then the
edge-triggered audio-policy tail (`if target_key:` treats the empty string
as falsy). -/
def StateMachine.update (m : SMState) (context : SharedContext) :
    SMState × List SMEvent :=
  let active := activeState m
  let dispatch := [SMEvent.update_dispatch active]
  match AudioPolicy.get_audio_key active.cls context with
  | some k =>
    if k = "" then ({ m with last_audio_key := none }, dispatch)
    else if some k = m.last_audio_key then (m, dispatch)
    else
      ({ m with last_audio_key := some k },
       dispatch ++ [SMEvent.play_voice k])
  | none => ({ m with last_audio_key := none }, dispatch)

/-- A script of machine operations (the collaborators' calls into the
machine between ticks). -/
inductive SMOp
  | change (cls : String)
  | push (cls : String)
  | pop
  | tick (context : SharedContext)
deriving DecidableEq

/-- Run a script of machine operations, collecting the event trace. -/
def smRun (hasOnClick : String → Bool) (m : SMState) :
    List SMOp → SMState × List SMEvent
  | [] => (m, [])
  | op :: ops =>
    let p :=
      match op with
      | .change cls => StateMachine.change_state hasOnClick m cls
      | .push cls => StateMachine.push_modal m cls
      | .pop => StateMachine.pop_modal hasOnClick m
      | .tick ctx => StateMachine.update m ctx
    let q := smRun hasOnClick p.1 ops
    (q.1, p.2 ++ q.2)

/-- Lifecycle events (`on_exit` / `on_enter`). -/
def isLifecycleEvent : SMEvent → Bool
  | .on_exit _ => true
  | .on_enter _ _ => true
  | _ => false

/-- `play_voice` events. -/
def isPlayEvent : SMEvent → Bool
  | .play_voice _ => true
  | _ => false

lemma modal_stack_eq_nil_state (m : SMState) (hm : m.modal_stack = []) :
    ({ m with modal_stack := [] } : SMState) = m := by
  cases m
  simp only at hm
  rw [← hm]

/-- The drain loop empties the stack, leaves every other field alone, and
its lifecycle trace is exactly the stack's `on_exit` calls in LIFO order. -/
lemma drainModalsGo_spec (hasOnClick : String → Bool) :
    ∀ (n : ℕ) (m : SMState), m.modal_stack.length ≤ n →
      (drainModalsGo hasOnClick n m).1 = { m with modal_stack := [] } ∧
      (drainModalsGo hasOnClick n m).2.filter isLifecycleEvent =
        m.modal_stack.reverse.map SMEvent.on_exit := by
  intro n
  induction n with
  | zero =>
    intro m hm
    have hnil : m.modal_stack = [] := by
      cases hs : m.modal_stack with
      | nil => rfl
      | cons a l => rw [hs] at hm; simp at hm
    rw [drainModalsGo, modal_stack_eq_nil_state m hnil, hnil]
    exact ⟨rfl, rfl⟩
  | succ n ih =>
    intro m hm
    by_cases hnil : m.modal_stack = []
    · rw [drainModalsGo, if_pos hnil, modal_stack_eq_nil_state m hnil, hnil]
      exact ⟨rfl, rfl⟩
    · obtain ⟨l, x, hlx⟩ : ∃ l x, m.modal_stack = l ++ [x] := by
        rcases List.eq_nil_or_concat m.modal_stack with h | ⟨l, x, h⟩
        · exact absurd h hnil
        · exact ⟨l, x, by rw [h, List.concat_eq_append]⟩
      have hlast : m.modal_stack.getLast? = some x := by
        rw [hlx, List.getLast?_concat]
      have hdrop : m.modal_stack.dropLast = l := by
        rw [hlx, List.dropLast_concat]
      have hpop : StateMachine.pop_modal hasOnClick m =
          ({ m with modal_stack := l },
           [SMEvent.on_exit x,
            SMEvent.set_click_callback
              (if hasOnClick (match l.getLast? with
                | some t => t
                | none => m.current_state).cls then
                some (match l.getLast? with
                  | some t => t
                  | none => m.current_state)
               else none)]) := by
        unfold StateMachine.pop_modal
        rw [hlast]
        dsimp only
        rw [hdrop]
      have hlen : l.length ≤ n := by
        have := congrArg List.length hlx
        simp only [List.length_append, List.length_singleton] at this
        omega
      obtain ⟨ih1, ih2⟩ := ih { m with modal_stack := l } hlen
      rw [drainModalsGo, if_neg hnil]
      dsimp only
      rw [hpop]
      dsimp only
      constructor
      · rw [ih1]
      · rw [List.filter_append, ih2]
        dsimp only
        rw [hlx]
        simp [isLifecycleEvent]

/-- `drainModals` at full fuel. -/
lemma drainModals_spec (hasOnClick : String → Bool) (m : SMState) :
    (drainModals hasOnClick m).1 = { m with modal_stack := [] } ∧
    (drainModals hasOnClick m).2.filter isLifecycleEvent =
      m.modal_stack.reverse.map SMEvent.on_exit :=
  drainModalsGo_spec hasOnClick m.modal_stack.length m le_rfl

/-- C7: modal-drain invariant.  Every `change_state` call pops each modal in
LIFO order with `on_exit`, then exits the current state, all before the new
state's `on_enter(prev_state = old current state)`; the call empties the
modal stack and sets `current_state_name` to the new (non-modal) state's
class, while `push_modal` and `pop_modal` never change
`current_state_name`. -/
theorem C7_modal_drain_invariant (hasOnClick : String → Bool) (m : SMState)
    (next_cls modal_cls : String) :
    (StateMachine.change_state hasOnClick m next_cls).2.filter
        isLifecycleEvent =
      m.modal_stack.reverse.map SMEvent.on_exit ++
        [SMEvent.on_exit m.current_state,
         SMEvent.on_enter ⟨next_cls, m.next_id⟩ (some m.current_state)] ∧
    (StateMachine.change_state hasOnClick m next_cls).1.current_state_name =
      next_cls ∧
    (StateMachine.change_state hasOnClick m next_cls).1.modal_stack = [] ∧
    (StateMachine.change_state hasOnClick m next_cls).1.current_state.cls =
      next_cls ∧
    (StateMachine.push_modal m modal_cls).1.current_state_name =
      m.current_state_name ∧
    (StateMachine.pop_modal hasOnClick m).1.current_state_name =
      m.current_state_name := by
  obtain ⟨hd1, hd2⟩ := drainModals_spec hasOnClick m
  have h1 : (StateMachine.change_state hasOnClick m next_cls).1 =
      { m with current_state := ⟨next_cls, m.next_id⟩,
               current_state_name := next_cls,
               modal_stack := [],
               next_id := m.next_id + 1 } := by
    unfold StateMachine.change_state
    dsimp only
    rw [hd1]
  have h2 : (StateMachine.change_state hasOnClick m next_cls).2 =
      (drainModals hasOnClick m).2 ++
        [SMEvent.on_exit m.current_state,
         SMEvent.on_enter ⟨next_cls, m.next_id⟩ (some m.current_state)] := by
    unfold StateMachine.change_state
    dsimp only
    rw [hd1]
  refine ⟨?_, by rw [h1], by rw [h1], by rw [h1], rfl, ?_⟩
  · rw [h2, List.filter_append, hd2]
    simp [isLifecycleEvent]
  · unfold StateMachine.pop_modal
    cases m.modal_stack.getLast? with
    | none => rfl
    | some modal => rfl

/-- Counterexample to C8: starting in `FaceAlignmentState`, an update plays
"welcome"; after a transition to a state with no audio key, the update plays
nothing (but clears the memory); transitioning back and updating plays
"welcome" again — the same key is played twice although nothing else was
played in between. -/
theorem C8_counterexample :
    (smRun (fun _ => false) (initSMState "FaceAlignmentState")
      [SMOp.tick ⟨none, false⟩, SMOp.change "DebugState",
       SMOp.tick ⟨none, false⟩, SMOp.change "FaceAlignmentState",
       SMOp.tick ⟨none, false⟩]).2.filter isPlayEvent =
      [SMEvent.play_voice "welcome", SMEvent.play_voice "welcome"] := by
  decide

/-- C8 (amended): on each `update` call the resolved key is played exactly
when it is non-empty and differs from the remembered last-triggered key; the
remembered key is then set to the call's resolved key (cleared when no key,
or an empty key, resolves), and `change_state`, `push_modal` and `pop_modal`
never touch it.  Hence a key is never replayed on consecutive updates while
it keeps resolving unchanged, and a key seen earlier is played again exactly
when the effective resolution changed in between (another key played, or no
key resolved, which clears the memory). -/
theorem C8_audio_policy_edge_trigger (m : SMState) (context : SharedContext)
    (hasOnClick : String → Bool) (next_cls modal_cls : String) :
    (StateMachine.update m context).2.filter isPlayEvent =
      (match AudioPolicy.get_audio_key (activeState m).cls context with
       | some k =>
         if k = "" then []
         else if some k = m.last_audio_key then []
         else [SMEvent.play_voice k]
       | none => []) ∧
    (StateMachine.update m context).1.last_audio_key =
      (match AudioPolicy.get_audio_key (activeState m).cls context with
       | some k => if k = "" then none else some k
       | none => none) ∧
    (StateMachine.change_state hasOnClick m next_cls).1.last_audio_key =
      m.last_audio_key ∧
    (StateMachine.push_modal m modal_cls).1.last_audio_key =
      m.last_audio_key ∧
    (StateMachine.pop_modal hasOnClick m).1.last_audio_key =
      m.last_audio_key := by
  refine ⟨?_, ?_, ?_, rfl, ?_⟩
  · cases hk : AudioPolicy.get_audio_key (activeState m).cls context with
    | none =>
      unfold StateMachine.update
      dsimp only
      rw [hk]
      simp [isPlayEvent]
    | some k =>
      unfold StateMachine.update
      dsimp only
      rw [hk]
      dsimp only
      by_cases he : k = ""
      · simp [isPlayEvent, he]
      · by_cases hs : some k = m.last_audio_key
        · simp [isPlayEvent, he, hs]
        · simp [isPlayEvent, he, hs]
  · cases hk : AudioPolicy.get_audio_key (activeState m).cls context with
    | none =>
      unfold StateMachine.update
      dsimp only
      rw [hk]
    | some k =>
      unfold StateMachine.update
      dsimp only
      rw [hk]
      dsimp only
      by_cases he : k = ""
      · rw [if_pos he, if_pos he]
      · by_cases hs : some k = m.last_audio_key
        · rw [if_neg he, if_pos hs, if_neg he]
          exact hs.symm
        · rw [if_neg he, if_neg hs, if_neg he]
  · unfold StateMachine.change_state
    dsimp only
    rw [(drainModals_spec hasOnClick m).1]
  · unfold StateMachine.pop_modal
    cases m.modal_stack.getLast? with
    | none => rfl
    | some modal => rfl

/-! ## Gesture path of the supervisor
(`SessionSupervisor.update_gestures`) -/

/-- `SessionSupervisor.update_gestures`: builds a prediction from the
tracker result (confidence 1.0 when stable, else 0.5), validates it, clears
the same-gesture memory on a stable `free`, and suppresses a confirmed
gesture equal to the last triggered one (`if confirmed_gesture:` makes an
empty class name falsy).  Returns the new state, the effective gesture and
the prediction. -/
def SessionSupervisor.update_gestures (cfg : GVConfig) (s : SupState)
    (now : ℚ) (tr : TrackerResult) :
    SupState × Option String × Prediction :=
  let prediction : Prediction :=
    { class_name := tr.position.value,
      confidence := if tr.is_stable then 1 else 1/2 }
  let v := GestureValidator.validate cfg s.gv now (some prediction)
  let lt1 :=
    if tr.position.value = "free" ∧ tr.is_stable = true then none
    else s.last_trigger_gesture
  let res : Option String × Option String :=
    match v.2 with
    | some g =>
      if g = "" then (lt1, none)
      else if some g = lt1 then (lt1, none)
      else (some g, some g)
    | none => (lt1, none)
  ({ s with gv := v.1, last_trigger_gesture := res.1 }, res.2, prediction)

/-- Iterated `update_gestures`, collecting the effective gestures. -/
def supGestureRun (cfg : GVConfig) (s : SupState) :
    List (ℚ × TrackerResult) → SupState × List (Option String)
  | [] => (s, [])
  | c :: cs =>
    let p := SessionSupervisor.update_gestures cfg s c.1 c.2
    let q := supGestureRun cfg p.1 cs
    (q.1, p.2.1 :: q.2)

/-- A tracker result whose position is stable `free`. -/
def freeStableInput (tr : TrackerResult) : Prop :=
  tr.position.value = "free" ∧ tr.is_stable = true

instance (tr : TrackerResult) : Decidable (freeStableInput tr) :=
  inferInstanceAs
    (Decidable (tr.position.value = "free" ∧ tr.is_stable = true))

/-- A stable tracker result at a given zone. -/
def stableTR (z : FingerPosition) : TrackerResult :=
  { position := z, progress := 1, is_stable := true,
    debug_info := .noDetection 0 }

/-- Fifteen stable ticks one second apart: five `left`, five `right`, five
`left` again, with no `free` anywhere. -/
def c9Script : List (ℚ × TrackerResult) :=
  [(0, stableTR .left), (1, stableTR .left), (2, stableTR .left),
   (3, stableTR .left), (4, stableTR .left),
   (5, stableTR .right), (6, stableTR .right), (7, stableTR .right),
   (8, stableTR .right), (9, stableTR .right),
   (10, stableTR .left), (11, stableTR .left), (12, stableTR .left),
   (13, stableTR .left), (14, stableTR .left)] 

/-- Counterexample to C9: with the default validator parameters, the run
left×5, right×5, left×5 (all stable, no `free` tick anywhere) returns the
effective gesture "left" twice — the `right` emission in between overwrote
`last_trigger_gesture`, so no stable-`free` tick was needed. -/
theorem C9_counterexample :
    (supGestureRun defaultGVConfig initSupState c9Script).2 =
      [none, none, none, none, some "left",
       none, none, none, none, some "right",
       none, none, none, none, some "left"] ∧
    c9Script.all (fun c => decide (¬ freeStableInput c.2)) = true := by
  decide

/-- A prediction carrying the free class is never confirmed. -/
lemma validate_free_none (cfg : GVConfig) (s : GVState) (now : ℚ)
    (p : Prediction) (hp : p.class_name = cfg.free_class) :
    (GestureValidator.validate cfg s now (some p)).2 = none := by
  simp only [GestureValidator.validate]
  by_cases hl : now < s.locked_until
  · rw [if_pos hl, if_pos hp]
  · rw [if_neg hl, if_pos (Or.inr hp)]

/-- Per-call behavior of the same-gesture memory. -/
lemma update_gestures_step (cfg : GVConfig) (hfc : cfg.free_class = "free")
    (s : SupState) (now : ℚ) (tr : TrackerResult) :
    (freeStableInput tr →
      (SessionSupervisor.update_gestures cfg s now tr).2.1 = none ∧
      (SessionSupervisor.update_gestures cfg s now
        tr).1.last_trigger_gesture = none) ∧
    (∀ g, (SessionSupervisor.update_gestures cfg s now tr).2.1 = some g →
      s.last_trigger_gesture ≠ some g ∧
      (SessionSupervisor.update_gestures cfg s now
        tr).1.last_trigger_gesture = some g) ∧
    (¬ freeStableInput tr →
      (SessionSupervisor.update_gestures cfg s now tr).2.1 = none →
      (SessionSupervisor.update_gestures cfg s now
        tr).1.last_trigger_gesture = s.last_trigger_gesture) := by
  unfold SessionSupervisor.update_gestures
  dsimp only
  by_cases hfree : tr.position.value = "free" ∧ tr.is_stable = true
  · have hvn : (GestureValidator.validate cfg s.gv now
        (some { class_name := tr.position.value,
                confidence := if tr.is_stable then 1 else 1/2 })).2 = none :=
      validate_free_none cfg s.gv now _ (by rw [hfc]; exact hfree.1)
    rw [hvn, if_pos hfree]
    exact ⟨fun _ => ⟨rfl, rfl⟩,
      fun g hg => absurd hg (by simp),
      fun hnf => absurd hfree hnf⟩
  · rw [if_neg hfree]
    refine ⟨fun hf => absurd hf hfree, ?_, ?_⟩
    · intro g hg
      generalize (GestureValidator.validate cfg s.gv now
          (some { class_name := tr.position.value,
                  confidence := if tr.is_stable then 1 else 1/2 })).2 = o
        at hg ⊢
      cases o with
      | none => dsimp only at hg; exact absurd hg (by simp)
      | some g0 =>
        dsimp only at hg ⊢
        by_cases he : g0 = ""
        · rw [if_pos he] at hg; exact absurd hg (by simp)
        · rw [if_neg he] at hg ⊢
          by_cases hsame : some g0 = s.last_trigger_gesture
          · rw [if_pos hsame] at hg; exact absurd hg (by simp)
          · rw [if_neg hsame] at hg ⊢
            obtain rfl : g0 = g := by simpa using hg
            exact ⟨fun h => hsame h.symm, rfl⟩
    · intro _ hg
      generalize (GestureValidator.validate cfg s.gv now
          (some { class_name := tr.position.value,
                  confidence := if tr.is_stable then 1 else 1/2 })).2 = o
        at hg ⊢
      cases o with
      | none => rfl
      | some g0 =>
        dsimp only at hg ⊢
        by_cases he : g0 = ""
        · rw [if_pos he]
        · rw [if_neg he] at hg ⊢
          by_cases hsame : some g0 = s.last_trigger_gesture
          · rw [if_pos hsame]
          · rw [if_neg hsame] at hg
            exact absurd hg (by simp)

/-- While the memory holds `g` and no stable-`free` tick arrives, `g` can
only be emitted after some other gesture was emitted first. -/
lemma supGestureRun_no_retrigger (cfg : GVConfig)
    (hfc : cfg.free_class = "free") :
    ∀ (calls : List (ℚ × TrackerResult)) (s : SupState) (g : String),
      s.last_trigger_gesture = some g →
      ∀ (j : ℕ),
      (∀ k c, k ≤ j → calls[k]? = some c → ¬ freeStableInput c.2) →
      (supGestureRun cfg s calls).2[j]? = some (some g) →
      ∃ k g2, k < j ∧
        (supGestureRun cfg s calls).2[k]? = some (some g2) ∧ g2 ≠ g := by
  intro calls
  induction calls with
  | nil =>
    intro s g _ j _ hj
    rw [show (supGestureRun cfg s []).2 = [] from rfl] at hj
    simp at hj
  | cons c cs ih =>
    intro s g hlt j hfree hj
    obtain ⟨_, hstep2, hstep3⟩ := update_gestures_step cfg hfc s c.1 c.2
    have hfree0 : ¬ freeStableInput c.2 :=
      hfree 0 c (Nat.zero_le j) (by simp)
    cases j with
    | zero =>
      rw [show (supGestureRun cfg s (c :: cs)).2 =
          (SessionSupervisor.update_gestures cfg s c.1 c.2).2.1 ::
          (supGestureRun cfg
            (SessionSupervisor.update_gestures cfg s c.1 c.2).1 cs).2
        from rfl] at hj
      simp only [List.getElem?_cons_zero] at hj
      obtain ⟨hne, _⟩ := hstep2 g (by simpa using hj)
      exact absurd hlt hne
    | succ j =>
      rw [show (supGestureRun cfg s (c :: cs)).2 =
          (SessionSupervisor.update_gestures cfg s c.1 c.2).2.1 ::
          (supGestureRun cfg
            (SessionSupervisor.update_gestures cfg s c.1 c.2).1 cs).2
        from rfl] at hj ⊢
      simp only [List.getElem?_cons_succ] at hj
      cases ho : (SessionSupervisor.update_gestures cfg s c.1 c.2).2.1 with
      | some g2 =>
        by_cases hg2 : g2 = g
        · subst hg2
          obtain ⟨hne, _⟩ := hstep2 g2 ho
          exact absurd hlt hne
        · exact ⟨0, g2, Nat.succ_pos j, by simp [ho], hg2⟩
      | none =>
        have hlt1 : (SessionSupervisor.update_gestures cfg s c.1
            c.2).1.last_trigger_gesture = some g := by
          rw [hstep3 hfree0 ho, hlt]
        obtain ⟨k, g2, hk, hout, hg2⟩ :=
          ih (SessionSupervisor.update_gestures cfg s c.1 c.2).1 g hlt1 j
            (fun k ck hkj hck => hfree (k + 1) ck (by omega) (by simpa))
            hj
        exact ⟨k + 1, g2, by omega, by simpa using hout, hg2⟩

/-- C9 (amended): implicit same-gesture blocking in the supervisor.  A
confirmed gesture equal to the remembered last-triggered one is suppressed,
and across any run of `update_gestures` calls the same class `g` is returned
as the effective gesture at two positions `i < j` only if, in between,
either some tracker result was stable `free` (clearing the memory) or some
other gesture class was returned as the effective gestur.  (The free-class
name is "free", as the tracker positions feed the validator.) -/
theorem C9_same_gesture_blocking (cfg : GVConfig)
    (hfc : cfg.free_class = "free") (calls : List (ℚ × TrackerResult))
    (s : SupState) (i j : ℕ) (g : String) (hij : i < j)
    (hi : (supGestureRun cfg s calls).2[i]? = some (some g))
    (hj : (supGestureRun cfg s calls).2[j]? = some (some g))
    (hfree : ∀ k c, i < k → k ≤ j → calls[k]? = some c →
      ¬ freeStableInput c.2) :
    ∃ k g2, i < k ∧ k < j ∧
      (supGestureRun cfg s calls).2[k]? = some (some g2) ∧ g2 ≠ g := by
  induction calls generalizing s i j with
  | nil =>
    rw [show (supGestureRun cfg s []).2 = [] from rfl] at hi
    simp at hi
  | cons c cs ih =>
    rw [show (supGestureRun cfg s (c :: cs)).2 =
        (SessionSupervisor.update_gestures cfg s c.1 c.2).2.1 ::
        (supGestureRun cfg
          (SessionSupervisor.update_gestures cfg s c.1 c.2).1 cs).2
      from rfl] at hi hj ⊢
    cases i with
    | zero =>
      simp only [List.getElem?_cons_zero] at hi
      obtain ⟨_, hstep2, _⟩ := update_gestures_step cfg hfc s c.1 c.2
      obtain ⟨_, hlt1⟩ := hstep2 g (by simpa using hi)
      obtain ⟨j2, rfl⟩ : ∃ j2, j = j2 + 1 := ⟨j - 1, by omega⟩
      simp only [List.getElem?_cons_succ] at hj
      obtain ⟨k, g2, hk, hout, hg2⟩ :=
        supGestureRun_no_retrigger cfg hfc cs
          (SessionSupervisor.update_gestures cfg s c.1 c.2).1 g hlt1 j2
          (fun k ck hkj hck => hfree (k + 1) ck (by omega) (by omega)
            (by simpa))
          hj
      exact ⟨k + 1, g2, by omega, by omega, by simpa using hout, hg2⟩
    | succ i =>
      obtain ⟨j2, rfl⟩ : ∃ j2, j = j2 + 1 := ⟨j - 1, by omega⟩
      simp only [List.getElem?_cons_succ] at hi hj
      obtain ⟨k, g2, hk1, hk2, hout, hg2⟩ :=
        ih (SessionSupervisor.update_gestures cfg s c.1 c.2).1 i j2
          (by omega) hi hj
          (fun k ck hik hkj hck => hfree (k + 1) ck (by omega) (by omega)
            (by simpa))
      exact ⟨k + 1, g2, by omega, by omega, by simpa using hout, hg2⟩

set_option maxRecDepth 8192 in
/-- Witness for the amended C9 on the concrete left/right/left run: between
the two "left" emissions (positions 4 and 14) another gesture was emitted. -/
theorem C9_same_gesture_witness :
    ∃ k g2, 4 < k ∧ k < 14 ∧
      (supGestureRun defaultGVConfig initSupState c9Script).2[k]? =
        some (some g2) ∧ g2 ≠ "left" := by
  refine C9_same_gesture_blocking defaultGVConfig rfl c9Script initSupState
    4 14 "left" (by decide) (by decide) (by decide) ?_
  intro k c h1 h2 hc
  interval_cases k <;>
    (simp only [c9Script, List.getElem?_cons_succ,
      List.getElem?_cons_zero] at hc) <;>
    (obtain rfl := Option.some.inj hc; decide)

/-! ## Account ledger (`src/core/account_manager.py`) -/

/-- One stored account record (`load_data` fills missing `trials` and
`is_frozen` fields with 0 and false, so they are always present). -/
structure Account where
  name : String
  pin_hash : String
  balance : ℤ
  trials : ℕ
  is_frozen : Bool
deriving DecidableEq

/-- The in-memory ledger: the `accounts` dict keyed by account number, plus
the security configuration.  `save_data` persists to disk and does not
change the in-memory state. -/
structure AccountManager where
  accounts : String → Option Account
  salt : String
  max_amount : ℤ
  max_pin_trials : ℕ

/-- `AccountManager.withdraw`, returning the new manager and the
`(success, message)` pair of the source. -/
def AccountManager.withdraw (m : AccountManager) (account_number : String)
    (amount : ℤ) : AccountManager × Bool × String :=
  match m.accounts account_number with
  | none => (m, false, "口座が存在しません")
  | some acc =>
    if acc.is_frozen then (m, false, "該当口座は凍結されています")
    else if m.max_amount < amount then
      (m, false,
       "取引上限額(" ++ toString m.max_amount ++ "円)を超えています")
    else if amount ≤ 0 then (m, false, "金額が不正です")
    else if acc.balance < amount then (m, false, "残高不足です")
    else
      ({ m with accounts := fun k =>
          if k = account_number then
            some { acc with balance := acc.balance - amount }
          else m.accounts k },
       true, "引き出し完了")

/-- C10: ledger withdraw contract.  `withdraw` succeeds iff the account
exists, is not frozen, `0 < amount ≤ max_amount`, and `amount ≤ balance`; on
success the account's balance decreases by exactly `amount` while every
other account and every configuration field are unchanged; on any failure
the whole manager is unchanged (the failed operation is atomic). -/
theorem C10_withdraw_contract (m : AccountManager) (account_number : String)
    (amount : ℤ) :
    ((AccountManager.withdraw m account_number amount).2.1 = true ↔
      ∃ acc, m.accounts account_number = some acc ∧ acc.is_frozen = false ∧
        0 < amount ∧ amount ≤ m.max_amount ∧ amount ≤ acc.balance) ∧
    ((AccountManager.withdraw m account_number amount).2.1 = true →
      ∀ acc, m.accounts account_number = some acc →
        (AccountManager.withdraw m account_number amount).1.accounts
            account_number =
          some { acc with balance := acc.balance - amount } ∧
        ∀ k, k ≠ account_number →
          (AccountManager.withdraw m account_number amount).1.accounts k =
            m.accounts k) ∧
    ((AccountManager.withdraw m account_number amount).2.1 = false →
      (AccountManager.withdraw m account_number amount).1 = m) ∧
    (AccountManager.withdraw m account_number amount).1.salt = m.salt ∧
    (AccountManager.withdraw m account_number amount).1.max_amount =
      m.max_amount ∧
    (AccountManager.withdraw m account_number amount).1.max_pin_trials =
      m.max_pin_trials := by
  unfold AccountManager.withdraw
  cases hacc : m.accounts account_number with
  | none =>
    refine ⟨⟨fun h => absurd h (by simp), ?_⟩,
      fun h => absurd h (by simp), fun _ => rfl, rfl, rfl, rfl⟩
    rintro ⟨acc, hacc2, -⟩
    exact absurd hacc2 (by simp)
  | some acc =>
    dsimp only
    by_cases h1 : acc.is_frozen
    · rw [if_pos h1]
      refine ⟨⟨fun h => absurd h (by simp), ?_⟩,
        fun h => absurd h (by simp), fun _ => rfl, rfl, rfl, rfl⟩
      rintro ⟨acc2, hacc2, hfz, -⟩
      obtain rfl := Option.some.inj hacc2
      rw [h1] at hfz
      exact absurd hfz (by simp)
    · rw [if_neg h1]
      by_cases h2 : m.max_amount < amount
      · rw [if_pos h2]
        refine ⟨⟨fun h => absurd h (by simp), ?_⟩,
          fun h => absurd h (by simp), fun _ => rfl, rfl, rfl, rfl⟩
        rintro ⟨acc2, hacc2, -, -, hle, -⟩
        omega
      · rw [if_neg h2]
        by_cases h3 : amount ≤ 0
        · rw [if_pos h3]
          refine ⟨⟨fun h => absurd h (by simp), ?_⟩,
            fun h => absurd h (by simp), fun _ => rfl, rfl, rfl, rfl⟩
          rintro ⟨acc2, hacc2, -, hpos, -⟩
          omega
        · rw [if_neg h3]
          by_cases h4 : acc.balance < amount
          · rw [if_pos h4]
            refine ⟨⟨fun h => absurd h (by simp), ?_⟩,
              fun h => absurd h (by simp), fun _ => rfl, rfl, rfl, rfl⟩
            rintro ⟨acc2, hacc2, -, -, -, hbal⟩
            obtain rfl := Option.some.inj hacc2
            omega
          · rw [if_neg h4]
            refine ⟨⟨fun _ => ⟨acc, rfl, by simpa using h1, by omega,
                by omega, by omega⟩, fun _ => rfl⟩,
              ?_, fun h => absurd h (by simp), rfl, rfl, rfl⟩
            intro _ acc2 hacc2
            obtain rfl := Option.some.inj hacc2
            exact ⟨by simp, fun k hk => by simp [hk]⟩

/-- The demo account created by `load_data` on first run (balance
1,000,000). -/
def demoAccount : Account :=
  { name := "デモタロウ", pin_hash := "demo_hash", balance := 1000000,
    trials := 0, is_frozen := false }

/-- A ledger holding exactly the demo account under number 123456, with the
default security configuration. -/
def demoManager : AccountManager :=
  { accounts := fun k => if k = "123456" then some demoAccount else none,
    salt := "default_salt", max_amount := 999999, max_pin_trials := 3 }

/-- Witness for C10: withdrawing 500 from the demo account succeeds and
leaves a balance of 999,500. -/
theorem C10_withdraw_witness :
    (AccountManager.withdraw demoManager "123456" 500).2.1 = true ∧
    (AccountManager.withdraw demoManager "123456" 500).1.accounts "123456" =
      some { demoAccount with balance := demoAccount.balance - 500 } := by
  have h := C10_withdraw_contract demoManager "123456" 500
  have hok : (AccountManager.withdraw demoManager "123456" 500).2.1 = true :=
    h.1.mpr ⟨demoAccount, rfl, rfl, by decide, by decide, by decide⟩
  exact ⟨hok, (h.2.1 hok demoAccount rfl).1⟩

end ATM
